import Mathlib

/-!
Verification of the shopping-cart store of the seraphany_archive repository
(frontend cart context: `cartReducer`, `loadCartFromStorage`,
`saveCartToStorage`, `getItemCount`, `getTotalPrice` and the provider glue).

Modelling conventions:
* JavaScript numbers are modelled as exact rationals (`ℚ`); the code performs
  only additions, multiplications and comparisons on them.
* The durable slot (`localStorage` key) is modelled by `SlotContent`: the key
  can be absent (or hold the empty, falsy string), hold text that
  `JSON.parse` rejects, or hold text that parses to a JSON value.
* A JavaScript exception that may escape an expression is modelled with
  `Except Unit`; a `try/catch` block is modelled by matching on the result.
  Property access `x.f` on a parsed JSON value throws (TypeError) exactly
  when `x` is `null`; on any non-object it yields `undefined` (here: `none`).
-/

/-- The `CartItem` interface of the frontend types: id, name, price,
quantity, image.  Numbers are modelled as `ℚ`, strings as `String`. -/
structure CartItem where
  id : ℚ
  name : String
  price : ℚ
  quantity : ℚ
  image : String
deriving DecidableEq, Repr

/-- `Omit<CartItem, 'quantity'>`: the payload of an `ADD_ITEM` action. -/
structure CartItemInput where
  id : ℚ
  name : String
  price : ℚ
  image : String
deriving DecidableEq, Repr

/-- The reducer state `{ items: CartItem[] }`. -/
structure CartState where
  items : List CartItem
deriving DecidableEq, Repr

/-- The `CartAction` union type of the cart context. -/
inductive CartAction where
  | loadCart (payload : List CartItem)
  | addItem (payload : CartItemInput)
  | removeItem (payload : ℚ)
  | updateQuantity (id : ℚ) (quantity : ℚ)
  | clearCart
deriving DecidableEq, Repr

/-- `cartReducer` of the cart context, case for case:
`LOAD_CART` replaces the items; `ADD_ITEM` increments the quantity of every
item with the payload's id if one exists (`find` then `map`), otherwise
appends the payload with quantity 1; `REMOVE_ITEM` filters the id out;
`UPDATE_QUANTITY` maps the new quantity onto matching items and then filters
out items with non-positive quantity; `CLEAR_CART` empties the items. -/
def cartReducer (state : CartState) (action : CartAction) : CartState :=
  match action with
  | .loadCart payload => { state with items := payload }
  | .addItem payload =>
      match state.items.find? (fun item => decide (item.id = payload.id)) with
      | some _ =>
          { state with items := state.items.map (fun item =>
              if item.id = payload.id then
                { item with quantity := item.quantity + 1 }
              else item) }
      | none =>
          { state with items := state.items ++
              [{ id := payload.id, name := payload.name,
                 price := payload.price, quantity := 1,
                 image := payload.image }] }
  | .removeItem payload =>
      { state with items :=
          state.items.filter (fun item => decide (item.id ≠ payload)) }
  | .updateQuantity id quantity =>
      { state with items :=
          (state.items.map (fun item =>
            if item.id = id then { item with quantity := quantity }
            else item)).filter (fun item => decide (item.quantity > 0)) }
  | .clearCart => { state with items := [] }

/-- `getItemCount`: reduce over the items adding quantities, from 0. -/
def getItemCount (items : List CartItem) : ℚ :=
  items.foldl (fun total item => total + item.quantity) 0

/-- `getTotalPrice`: reduce over the items adding `price * quantity`, from 0. -/
def getTotalPrice (items : List CartItem) : ℚ :=
  items.foldl (fun total item => total + item.price * item.quantity) 0

/-- The initial reducer state of the provider: `{ items: [] }`. -/
def initialCartState : CartState := { items := [] }

/-- A JSON value, as produced by `JSON.parse`.  Objects are association
lists with pairwise-distinct keys (guaranteed by the parser). -/
inductive Json where
  | null
  | bool (b : Bool)
  | num (q : ℚ)
  | str (s : String)
  | arr (elems : List Json)
  | obj (fields : List (String × Json))

/-- JavaScript property read `j.k` on a non-null value: a key lookup on an
object, `undefined` (`none`) on any other non-null value. -/
def Json.fieldD (j : Json) (k : String) : Option Json :=
  match j with
  | .obj fields => (fields.find? (fun f => f.fst == k)).map Prod.snd
  | _ => none

/-- JavaScript property read `j.k` including the throwing case: reading a
property of `null` throws a TypeError. -/
def Json.getField (j : Json) (k : String) : Except Unit (Option Json) :=
  match j with
  | .null => .error ()
  | _ => .ok (j.fieldD k)

/-- `typeof v === 'number'` on a (possibly `undefined`) property value. -/
def isNumber : Option Json → Bool
  | some (.num _) => true
  | _ => false

/-- `typeof v === 'string'` on a (possibly `undefined`) property value. -/
def isString : Option Json → Bool
  | some (.str _) => true
  | _ => false

/-- The filter callback of `loadCartFromStorage`:
`typeof item.id === 'number' && typeof item.name === 'string' &&
typeof item.price === 'number' && typeof item.quantity === 'number'`,
with `&&` short-circuit and the possibility that a property read throws
(it does exactly when `item` is `null`). -/
def checkCartEntry (item : Json) : Except Unit Bool :=
  match item.getField "id" with
  | .error e => .error e
  | .ok idF =>
    if !(isNumber idF) then .ok false
    else
      match item.getField "name" with
      | .error e => .error e
      | .ok nameF =>
        if !(isString nameF) then .ok false
        else
          match item.getField "price" with
          | .error e => .error e
          | .ok priceF =>
            if !(isNumber priceF) then .ok false
            else
              match item.getField "quantity" with
              | .error e => .error e
              | .ok qtyF => .ok (isNumber qtyF)

/-- `Array.prototype.filter` with a callback that may throw: the first
throwing element aborts the whole filter with that exception. -/
def filterEntries : List Json → Except Unit (List Json)
  | [] => .ok []
  | j :: rest =>
      match checkCartEntry j with
      | .error e => .error e
      | .ok b =>
        match filterEntries rest with
        | .error e => .error e
        | .ok kept => .ok (if b then j :: kept else kept)

/-- Numeric view of a property value (used only on entries that passed the
type check, where it is exact). -/
def jsonNumD : Option Json → ℚ
  | some (.num q) => q
  | _ => 0

/-- String view of a property value.  The `image` field is not type-checked
by the load filter; a missing or non-string image is read as `""`. -/
def jsonStrD : Option Json → String
  | some (.str s) => s
  | _ => ""

/-- The typed view of a JSON entry kept by the load filter, as the code
uses it after the implicit cast to `CartItem`. -/
def decodeCartItem (j : Json) : CartItem :=
  { id := jsonNumD (j.fieldD "id")
    name := jsonStrD (j.fieldD "name")
    price := jsonNumD (j.fieldD "price")
    quantity := jsonNumD (j.fieldD "quantity")
    image := jsonStrD (j.fieldD "image") }

/-- The possible contents of the durable slot as seen by
`loadCartFromStorage`: key absent (or holding the falsy empty string), text
that `JSON.parse` throws on, or text that parses to a JSON value. -/
inductive SlotContent where
  | absent
  | unparsable
  | parsed (j : Json)

/-- The body of the `try` block of `loadCartFromStorage`: reads the slot,
parses it (which may throw), checks `Array.isArray`, and filters the
entries by the structural type check (property access may throw on a null
entry).  A non-array parse or an absent slot falls through to `return []`. -/
def loadCartAux : SlotContent → Except Unit (List CartItem)
  | .absent => .ok []
  | .unparsable => .error ()
  | .parsed j =>
      match j with
      | .arr elems =>
          match filterEntries elems with
          | .error e => .error e
          | .ok kept => .ok (kept.map decodeCartItem)
      | _ => .ok []

/-- `loadCartFromStorage`: the `try` body, with the `catch` turning any
thrown error into the final `return []`. -/
def loadCartFromStorage (slot : SlotContent) : List CartItem :=
  match loadCartAux slot with
  | .ok items => items
  | .error _ => []

/-- `JSON.stringify` of one cart item: an object with the five fields in
declaration order. -/
def encodeCartItem (item : CartItem) : Json :=
  .obj [("id", .num item.id), ("name", .str item.name),
        ("price", .num item.price), ("quantity", .num item.quantity),
        ("image", .str item.image)]

/-- The slot content written by a successful `saveCartToStorage`:
`JSON.stringify(items)` is a non-empty string that parses back to the array
of encoded items. -/
def serializeCart (items : List CartItem) : SlotContent :=
  .parsed (.arr (items.map encodeCartItem))

/-- `saveCartToStorage`: attempts `localStorage.setItem` with the
serialized items; `writeOk` says whether the storage call succeeds.  On
failure the exception is caught and swallowed (the slot keeps its previous
content); either way the function returns normally. -/
def saveCartToStorage (items : List CartItem) (writeOk : Bool)
    (slot : SlotContent) : SlotContent :=
  if writeOk then serializeCart items else slot

/-- One provider-level mutation: the reducer computes the new state, then
the persistence effect writes the new items to the slot (best effort).
Returns the new in-memory state and the new slot content. -/
def dispatchAndPersist (state : CartState) (action : CartAction)
    (writeOk : Bool) (slot : SlotContent) : CartState × SlotContent :=
  let newState := cartReducer state action
  (newState, saveCartToStorage newState.items writeOk slot)

/-- The provider's mount effect: load the saved cart and dispatch
`LOAD_CART` only when it is non-empty. -/
def startupState (slot : SlotContent) : CartState :=
  let savedCart := loadCartFromStorage slot
  if savedCart.length > 0 then
    cartReducer initialCartState (.loadCart savedCart)
  else initialCartState

/-- Folding a list of dispatched actions through the reducer. -/
def applyActions (state : CartState) (actions : List CartAction) : CartState :=
  actions.foldl cartReducer state

/-- The actions a user can trigger through the context interface, with the
integer quantities the UI input handlers pass: everything except the
internal `LOAD_CART`, and `updateQuantity` restricted to integral
quantities. -/
def CartAction.isUserIntAction : CartAction → Bool
  | .loadCart _ => false
  | .updateQuantity _ q => q.den == 1
  | _ => true

/-- Whether a JSON value is the literal `null`. -/
def Json.isNull : Json → Bool
  | .null => true
  | _ => false

/-- `Array.isArray` on a parsed JSON value. -/
def Json.isArr : Json → Bool
  | .arr _ => true
  | _ => false

/-- The pure outcome of the load filter's structural type check on one
entry, meaningful for non-`null` entries (where no property read throws). -/
def entryPasses (j : Json) : Bool :=
  isNumber (j.fieldD "id") && isString (j.fieldD "name") &&
    isNumber (j.fieldD "price") && isNumber (j.fieldD "quantity")

/-- The rational one half, used as a concrete non-integral quantity. -/
def half : ℚ := ⟨1, 2, by decide, by decide⟩

/-! ## General lemmas about the reducer's list operations -/

/-- `CartState` is determined by its items. -/
theorem CartState.eq_of_items (s t : CartState) (h : s.items = t.items) : s = t := by
  cases s
  cases t
  cases h
  rfl

/-- `find?` skips a block of elements on which the predicate is false. -/
theorem find_append_skip (f : CartItem → Bool) (l₁ l₂ : List CartItem)
    (h : ∀ x ∈ l₁, f x = false) :
    (l₁ ++ l₂).find? f = l₂.find? f := by
  induction l₁ with
  | nil => rfl
  | cons a t ih =>
      simp only [List.cons_append, List.find?_cons, h a (List.mem_cons_self a t)]
      exact ih fun x hx => h x (List.mem_cons_of_mem a hx)

/-- Mapping an id-guarded update over items none of which match the id is
the identity. -/
theorem map_ite_id (g : CartItem → CartItem) (pid : ℚ) (l : List CartItem)
    (h : ∀ x ∈ l, x.id ≠ pid) :
    l.map (fun item => if item.id = pid then g item else item) = l := by
  induction l with
  | nil => rfl
  | cons a t ih =>
      rw [List.map_cons, if_neg (h a (List.mem_cons_self a t)),
        ih fun x hx => h x (List.mem_cons_of_mem a hx)]

/-- Filtering by positive quantity keeps every item of quantity at least 1. -/
theorem filter_pos_eq_self (l : List CartItem) (h : ∀ x ∈ l, 1 ≤ x.quantity) :
    l.filter (fun item => decide (item.quantity > 0)) = l :=
  List.filter_eq_self.mpr fun a ha => by
    simp only [decide_eq_true_eq]
    exact lt_of_lt_of_le one_pos (h a ha)

/-- A left fold adding `f` of each element equals the initial value plus
the sum of the mapped list. -/
theorem foldl_add_map (f : CartItem → ℚ) (l : List CartItem) (init : ℚ) :
    l.foldl (fun total item => total + f item) init = init + (l.map f).sum := by
  induction l generalizing init with
  | nil => simp
  | cons a t ih => simp [List.foldl_cons, ih, add_assoc]

/-- Unfolding of the `ADD_ITEM` case when an item with the payload's id
exists. -/
theorem addItem_of_found (state : CartState) (p : CartItemInput) (x : CartItem)
    (hfind : state.items.find? (fun item => decide (item.id = p.id)) = some x) :
    (cartReducer state (.addItem p)).items = state.items.map (fun item =>
      if item.id = p.id then { item with quantity := item.quantity + 1 }
      else item) := by
  simp [cartReducer, hfind]

/-- Unfolding of the `ADD_ITEM` case when no item with the payload's id
exists. -/
theorem addItem_of_not_found (state : CartState) (p : CartItemInput)
    (hfind : state.items.find? (fun item => decide (item.id = p.id)) = none) :
    (cartReducer state (.addItem p)).items
      = state.items ++ [⟨p.id, p.name, p.price, 1, p.image⟩] := by
  simp [cartReducer, hfind]

/-- Unfolding of the `UPDATE_QUANTITY` case. -/
theorem updateQuantity_items (state : CartState) (id q : ℚ) :
    (cartReducer state (.updateQuantity id q)).items
      = (state.items.map (fun item =>
          if item.id = id then { item with quantity := q } else item)).filter
          (fun item => decide (item.quantity > 0)) := rfl

/-! ## C3, C8, C9 -/

/-- C3: `getTotalPrice()` equals the sum over all items of
`price * quantity`, `getItemCount()` equals the sum of all quantity values,
and both return 0 for an empty cart.  Both are plain folds over the item
list and leave it unchanged (they are pure functions of the state). -/
theorem C3_derived_reads (items : List CartItem) :
    getTotalPrice items = (items.map (fun item => item.price * item.quantity)).sum
    ∧ getItemCount items = (items.map (fun item => item.quantity)).sum
    ∧ getTotalPrice [] = 0 ∧ getItemCount [] = 0 := by
  refine ⟨?_, ?_, rfl, rfl⟩ <;>
    simp [getTotalPrice, getItemCount, foldl_add_map]

/-- C8: `clearCart()` yields the empty item collection unconditionally, is
idempotent, and is a no-op on an already-empty cart. -/
theorem C8_clearCart (state : CartState) :
    (cartReducer state .clearCart).items = []
    ∧ cartReducer (cartReducer state .clearCart) .clearCart
        = cartReducer state .clearCart
    ∧ (state.items = [] → cartReducer state .clearCart = state) := by
  refine ⟨rfl, rfl, fun h => ?_⟩
  exact CartState.eq_of_items _ _ (by rw [h]; rfl)

/-- Witness for C8 at the empty cart. -/
theorem C8_clearCart_witness :
    (cartReducer initialCartState .clearCart).items = []
    ∧ cartReducer initialCartState .clearCart = initialCartState :=
  ⟨(C8_clearCart initialCartState).1, (C8_clearCart initialCartState).2.2 rfl⟩

/-- C9: when the durable-slot write fails, the persistence step swallows
the error: the in-memory state is exactly the reducer result of the
mutation (for failed and successful writes alike) and a failed write
leaves the slot's previous content in place. -/
theorem C9_write_failure (state : CartState) (action : CartAction)
    (slot : SlotContent) :
    (dispatchAndPersist state action false slot).1 = cartReducer state action
    ∧ (dispatchAndPersist state action false slot).2 = slot
    ∧ (dispatchAndPersist state action true slot).1 = cartReducer state action :=
  ⟨rfl, rfl, rfl⟩

/-! ## C1: ADD_ITEM -/

/-- Auxiliary: `n` successive `ADD_ITEM` dispatches (with `1 ≤ n`) of the
same payload onto a cart with no line for that id append exactly one line
carrying the payload's snapshot fields and quantity `n`. -/
theorem addItem_iterate (p : CartItemInput) :
    ∀ n : ℕ, 1 ≤ n → ∀ pre : List CartItem, (∀ x ∈ pre, x.id ≠ p.id) →
      (applyActions ⟨pre⟩ (List.replicate n (.addItem p))).items
        = pre ++ [⟨p.id, p.name, p.price, (n : ℚ), p.image⟩] := by
  intro n
  induction n with
  | zero => omega
  | succ m ih =>
      intro _ pre hpre
      rcases Nat.eq_zero_or_pos m with hm | hm
      · subst hm
        have hfind : pre.find? (fun item => decide (item.id = p.id)) = none :=
          List.find?_eq_none.mpr fun x hx => by
            simp [hpre x hx]
        have h1 := addItem_of_not_found ⟨pre⟩ p hfind
        simp only [applyActions, List.replicate, List.foldl_cons, List.foldl_nil]
        rw [show ((cartReducer ⟨pre⟩ (.addItem p)) : CartState).items
            = pre ++ [⟨p.id, p.name, p.price, 1, p.image⟩] from h1]
        norm_num
      · have hmid := ih hm pre hpre
        set itm : CartItem := ⟨p.id, p.name, p.price, (m : ℚ), p.image⟩ with hitm
        have hmid' : applyActions ⟨pre⟩ (List.replicate m (.addItem p))
            = ⟨pre ++ [itm]⟩ :=
          CartState.eq_of_items _ _ hmid
        have hsplit : List.replicate (m + 1) (CartAction.addItem p)
            = List.replicate m (.addItem p) ++ [.addItem p] :=
          List.replicate_succ' m _
        have hmid2 : List.foldl cartReducer ⟨pre⟩
            (List.replicate m (CartAction.addItem p)) = ⟨pre ++ [itm]⟩ := hmid'
        rw [applyActions, hsplit, List.foldl_append, hmid2,
          List.foldl_cons, List.foldl_nil]
        have hfind : (pre ++ [itm]).find? (fun item => decide (item.id = p.id))
            = some itm := by
          rw [find_append_skip _ pre _ fun x hx => by simp [hpre x hx]]
          simp [hitm]
        rw [addItem_of_found _ _ _ hfind, List.map_append, map_ite_id _ _ pre hpre]
        have : ([itm].map (fun item =>
            if item.id = p.id then { item with quantity := item.quantity + 1 }
            else item)) = [⟨p.id, p.name, p.price, ((m + 1 : ℕ) : ℚ), p.image⟩] := by
          simp only [List.map_cons, List.map_nil, hitm, if_pos]
          norm_num
        rw [this]

/-- C1: on a cart with pairwise-distinct ids, `addItem` with an id already
present increments exactly that line's quantity by 1, keeping its add-time
name, price and image (the candidate's other fields are ignored) and every
other line unchanged; with a fresh id it appends the candidate with
quantity 1 at the end; and `n` successive adds of the same id starting
from a cart without that id yield exactly one line for it, with quantity
`n`, after the unchanged original items. -/
theorem C1_addItem_merge (state : CartState) (p : CartItemInput) (n : ℕ)
    (hdist : state.items.Pairwise (fun a b => a.id ≠ b.id)) :
    (∀ pre old post, state.items = pre ++ old :: post → old.id = p.id →
        (cartReducer state (.addItem p)).items
          = pre ++ { old with quantity := old.quantity + 1 } :: post)
    ∧ ((∀ item ∈ state.items, item.id ≠ p.id) →
        (cartReducer state (.addItem p)).items
          = state.items ++ [⟨p.id, p.name, p.price, 1, p.image⟩])
    ∧ ((∀ item ∈ state.items, item.id ≠ p.id) → 1 ≤ n →
        (applyActions state (List.replicate n (.addItem p))).items
          = state.items ++ [⟨p.id, p.name, p.price, (n : ℚ), p.image⟩]) := by
  refine ⟨?_, ?_, ?_⟩
  · intro pre old post hsplit hid
    rw [hsplit] at hdist
    have hparts := List.pairwise_append.mp hdist
    have hpre : ∀ x ∈ pre, x.id ≠ p.id := fun x hx =>
      hid ▸ hparts.2.2 x hx old (List.mem_cons_self old post)
    have hpost : ∀ x ∈ post, x.id ≠ p.id := fun x hx =>
      hid ▸ (Ne.symm ((List.pairwise_cons.mp hparts.2.1).1 x hx))
    have hfind : state.items.find? (fun item => decide (item.id = p.id))
        = some old := by
      rw [hsplit, find_append_skip _ pre _ fun x hx => by simp [hpre x hx]]
      simp [hid]
    rw [addItem_of_found _ _ _ hfind, hsplit, List.map_append, List.map_cons,
      map_ite_id _ _ pre hpre, map_ite_id _ _ post hpost, if_pos hid]
  · intro h
    exact addItem_of_not_found state p (List.find?_eq_none.mpr fun x hx => by
      simp [h x hx])
  · intro h hn
    have := addItem_iterate p n hn state.items h
    rwa [show (⟨state.items⟩ : CartState) = state from rfl] at this

/-- Witness for C1: a cart holding one line with id 1 and quantity 3;
adding id 1 again increments the quantity; two adds of id 1 into an empty
cart give one line with quantity 2. -/
theorem C1_addItem_merge_witness :
    (cartReducer ⟨[⟨1, "a", 2, 3, "i"⟩]⟩ (.addItem ⟨1, "x", 9, "y"⟩)).items
      = [⟨1, "a", 2, 3 + 1, "i"⟩]
    ∧ (applyActions ⟨[]⟩ (List.replicate 2 (.addItem ⟨1, "x", 9, "y"⟩))).items
      = [⟨1, "x", 9, ((2 : ℕ) : ℚ), "y"⟩] := by
  constructor
  · exact (C1_addItem_merge ⟨[⟨1, "a", 2, 3, "i"⟩]⟩ ⟨1, "x", 9, "y"⟩ 2
      (by decide)).1 [] ⟨1, "a", 2, 3, "i"⟩ [] rfl rfl
  · exact (C1_addItem_merge ⟨[]⟩ ⟨1, "x", 9, "y"⟩ 2 (by decide)).2.2
      (by simp) (by decide)

/-! ## C6: UPDATE_QUANTITY -/

/-- C6: on a cart satisfying the data-model invariants (pairwise-distinct
ids, all quantities at least 1) and for an integer quantity `q`,
`updateQuantity id q` sets the matching item's quantity to `q` when
`1 ≤ q`, removes the matching item entirely when `q ≤ 0`, and is a
complete no-op when no item has the given id. -/
theorem C6_setQuantity (state : CartState) (id : ℚ) (q : ℤ)
    (hdist : state.items.Pairwise (fun a b => a.id ≠ b.id))
    (hq1 : ∀ item ∈ state.items, 1 ≤ item.quantity) :
    (∀ pre old post, state.items = pre ++ old :: post → old.id = id →
        ((1 ≤ q →
          (cartReducer state (.updateQuantity id (q : ℚ))).items
            = pre ++ { old with quantity := (q : ℚ) } :: post)
         ∧ (q ≤ 0 →
          (cartReducer state (.updateQuantity id (q : ℚ))).items
            = pre ++ post)))
    ∧ ((∀ item ∈ state.items, item.id ≠ id) →
        cartReducer state (.updateQuantity id (q : ℚ)) = state) := by
  constructor
  · intro pre old post hsplit hid
    rw [hsplit] at hdist hq1
    have hparts := List.pairwise_append.mp hdist
    have hpre : ∀ x ∈ pre, x.id ≠ id := fun x hx =>
      hid ▸ hparts.2.2 x hx old (List.mem_cons_self old post)
    have hpost : ∀ x ∈ post, x.id ≠ id := fun x hx =>
      hid ▸ (Ne.symm ((List.pairwise_cons.mp hparts.2.1).1 x hx))
    have hqpre : ∀ x ∈ pre, 1 ≤ x.quantity := fun x hx =>
      hq1 x (List.mem_append.mpr (Or.inl hx))
    have hqpost : ∀ x ∈ post, 1 ≤ x.quantity := fun x hx =>
      hq1 x (List.mem_append.mpr (Or.inr (List.mem_cons_of_mem old hx)))
    rw [updateQuantity_items, hsplit, List.map_append, List.map_cons,
      map_ite_id _ _ pre hpre, map_ite_id _ _ post hpost, if_pos hid,
      List.filter_append, List.filter_cons, filter_pos_eq_self pre hqpre,
      filter_pos_eq_self post hqpost]
    constructor
    · intro hq
      have : (0 : ℚ) < (q : ℚ) := by exact_mod_cast Int.lt_of_lt_of_le zero_lt_one hq
      simp [this]
    · intro hq
      have : ¬ ((0 : ℚ) < (q : ℚ)) := by
        push_neg
        exact_mod_cast hq
      simp [this]
  · intro h
    apply CartState.eq_of_items
    rw [updateQuantity_items, map_ite_id _ _ state.items h,
      filter_pos_eq_self state.items hq1]

/-- Witness for C6 on the cart `[{id 2, quantity 1}]`: setting quantity 5
updates the line, setting quantity 0 removes it, and id 7 is a no-op. -/
theorem C6_setQuantity_witness :
    (cartReducer ⟨[⟨2, "b", 20, 1, ""⟩]⟩
        (.updateQuantity 2 ((5 : ℤ) : ℚ))).items = [⟨2, "b", 20, ((5 : ℤ) : ℚ), ""⟩]
    ∧ (cartReducer ⟨[⟨2, "b", 20, 1, ""⟩]⟩
        (.updateQuantity 2 ((0 : ℤ) : ℚ))).items = []
    ∧ cartReducer ⟨[⟨2, "b", 20, 1, ""⟩]⟩
        (.updateQuantity 7 ((-3 : ℤ) : ℚ)) = ⟨[⟨2, "b", 20, 1, ""⟩]⟩ := by
  refine ⟨?_, ?_, ?_⟩
  · exact ((C6_setQuantity ⟨[⟨2, "b", 20, 1, ""⟩]⟩ 2 5 (by decide)
      (by decide)).1 [] ⟨2, "b", 20, 1, ""⟩ [] rfl rfl).1 (by decide)
  · exact ((C6_setQuantity ⟨[⟨2, "b", 20, 1, ""⟩]⟩ 2 0 (by decide)
      (by decide)).1 [] ⟨2, "b", 20, 1, ""⟩ [] rfl rfl).2 (by decide)
  · exact (C6_setQuantity ⟨[⟨2, "b", 20, 1, ""⟩]⟩ 7 (-3) (by decide)
      (by decide)).2 (by decide)

/-! ## Invariant preservation under user actions (C2, C7) -/

/-- One user-triggered dispatch preserves the quantity-at-least-1
invariant. -/
theorem quantity_ge_one_step (s : CartState) (a : CartAction)
    (ha : a.isUserIntAction = true)
    (hs : ∀ item ∈ s.items, 1 ≤ item.quantity) :
    ∀ item ∈ (cartReducer s a).items, 1 ≤ item.quantity := by
  cases a with
  | loadCart payload => simp [CartAction.isUserIntAction] at ha
  | addItem p =>
      cases hfind : s.items.find? (fun item => decide (item.id = p.id)) with
      | some x =>
          rw [addItem_of_found s p x hfind]
          intro item hitem
          obtain ⟨y, hy, rfl⟩ := List.mem_map.mp hitem
          by_cases hid : y.id = p.id
          · rw [if_pos hid]
            have := hs y hy
            show 1 ≤ y.quantity + 1
            linarith
          · rw [if_neg hid]
            exact hs y hy
      | none =>
          rw [addItem_of_not_found s p hfind]
          intro item hitem
          rcases List.mem_append.mp hitem with h | h
          · exact hs item h
          · rcases List.mem_singleton.mp h with rfl
            exact le_refl 1
  | removeItem pid =>
      intro item hitem
      simp only [cartReducer] at hitem
      exact hs item (List.mem_of_mem_filter hitem)
  | updateQuantity id q =>
      simp only [CartAction.isUserIntAction, beq_iff_eq] at ha
      intro item hitem
      rw [updateQuantity_items] at hitem
      have hpred := List.of_mem_filter hitem
      obtain ⟨y, hy, rfl⟩ := List.mem_map.mp (List.mem_of_mem_filter hitem)
      simp only [decide_eq_true_eq] at hpred
      by_cases hid : y.id = id
      · rw [if_pos hid] at hpred ⊢
        have hq : ((q.num : ℚ)) = q := (Rat.den_eq_one_iff q).mp ha
        show 1 ≤ q
        have hpos : (0 : ℚ) < q := hpred
        rw [← hq] at hpos ⊢
        have h0 : 0 < q.num := by exact_mod_cast hpos
        have h1 : 1 ≤ q.num := h0
        exact_mod_cast h1
      · rw [if_neg hid]
        exact hs y hy
  | clearCart =>
      intro item hitem
      simp [cartReducer] at hitem

/-- A sequence of user-triggered dispatches preserves the
quantity-at-least-1 invariant. -/
theorem quantity_ge_one_fold (actions : List CartAction) :
    (∀ a ∈ actions, a.isUserIntAction = true) →
    ∀ s : CartState, (∀ item ∈ s.items, 1 ≤ item.quantity) →
    ∀ item ∈ (applyActions s actions).items, 1 ≤ item.quantity := by
  induction actions with
  | nil => exact fun _ s hs => hs
  | cons a rest ih =>
      intro h s hs
      exact ih (fun x hx => h x (List.mem_cons_of_mem a hx)) _
        (quantity_ge_one_step s a (h a (List.mem_cons_self a rest)) hs)

/-- `UPDATE_QUANTITY` with a non-positive quantity removes every line with
the given id. -/
theorem updateQuantity_removes (state : CartState) (id q : ℚ) (hq : q ≤ 0) :
    ∀ item ∈ (cartReducer state (.updateQuantity id q)).items, item.id ≠ id := by
  intro item hitem
  rw [updateQuantity_items] at hitem
  have hpred := List.of_mem_filter hitem
  obtain ⟨y, hy, rfl⟩ := List.mem_map.mp (List.mem_of_mem_filter hitem)
  simp only [decide_eq_true_eq] at hpred
  by_cases hid : y.id = id
  · rw [if_pos hid] at hpred
    have hpos : (0 : ℚ) < q := hpred
    exact absurd hpos (not_lt.mpr hq)
  · rw [if_neg hid]
    exact hid

/-- C2 (amended to the load-filter behavior): after any sequence of
user-level operations (add, remove, set integral quantity, clear) starting
from the initial empty cart, every remaining line item has quantity at
least 1; and `setQuantity(id, 0)` or `setQuantity(id, -3)` removes every
line with that id from any cart.  The startup load is excluded: it does
not re-establish this invariant (see the counterexample). -/
theorem C2_quantity_invariant (actions : List CartAction)
    (h : ∀ a ∈ actions, a.isUserIntAction = true) :
    (∀ item ∈ (applyActions initialCartState actions).items, 1 ≤ item.quantity)
    ∧ (∀ (state : CartState) (id : ℚ),
        (∀ item ∈ (cartReducer state (.updateQuantity id 0)).items, item.id ≠ id)
        ∧ (∀ item ∈ (cartReducer state (.updateQuantity id (-3))).items,
            item.id ≠ id)) := by
  refine ⟨quantity_ge_one_fold actions h initialCartState ?_, ?_⟩
  · intro item hitem
    simp [initialCartState] at hitem
  · intro state id
    exact ⟨updateQuantity_removes state id 0 le_rfl,
      updateQuantity_removes state id (-3) (by norm_num)⟩

/-- Witness for C2 at a concrete three-action user session: the line with
id 1 ends the session with quantity 5, which is at least 1. -/
theorem C2_quantity_invariant_witness :
    1 ≤ (CartItem.mk 1 "a" 2 5 "").quantity :=
  (C2_quantity_invariant
    [.addItem ⟨1, "a", 2, ""⟩, .updateQuantity 1 5, .addItem ⟨2, "b", 3, ""⟩]
    (by decide)).1 ⟨1, "a", 2, 5, ""⟩ (by decide)

/-- A persisted slot holding a well-typed entry with quantity 0. -/
def zeroQuantitySlot : SlotContent :=
  .parsed (.arr [.obj [("id", .num 1), ("name", .str "X"), ("price", .num 10),
    ("quantity", .num 0), ("image", .str "")]])

/-- C2 counterexample: the startup load of a slot holding a well-typed
entry with quantity 0 puts that entry in the cart, so a reachable state
(reached through the startup load alone) violates `quantity >= 1`. -/
theorem C2_counterexample :
    ¬ (∀ item ∈ (startupState zeroQuantitySlot).items, 1 ≤ item.quantity) := by
  decide

/-- One user-triggered dispatch preserves pairwise-distinct ids. -/
theorem ids_distinct_step (s : CartState) (a : CartAction)
    (ha : a.isUserIntAction = true)
    (hs : s.items.Pairwise (fun x y => x.id ≠ y.id)) :
    (cartReducer s a).items.Pairwise (fun x y => x.id ≠ y.id) := by
  cases a with
  | loadCart payload => simp [CartAction.isUserIntAction] at ha
  | addItem p =>
      cases hfind : s.items.find? (fun item => decide (item.id = p.id)) with
      | some x =>
          rw [addItem_of_found s p x hfind, List.pairwise_map]
          have hid : ∀ z : CartItem,
              ((if z.id = p.id then { z with quantity := z.quantity + 1 }
                else z) : CartItem).id = z.id := by
            intro z
            by_cases hz : z.id = p.id <;> simp [hz]
          exact hs.imp fun {a b} hab => by rw [hid a, hid b]; exact hab
      | none =>
          rw [addItem_of_not_found s p hfind, List.pairwise_append]
          refine ⟨hs, List.pairwise_singleton _ _, ?_⟩
          intro x hx b hb
          rcases List.mem_singleton.mp hb with rfl
          have := List.find?_eq_none.mp hfind x hx
          simpa using this
  | removeItem pid =>
      exact List.Pairwise.sublist (List.filter_sublist _) hs
  | updateQuantity id q =>
      rw [updateQuantity_items]
      apply List.Pairwise.sublist (List.filter_sublist _)
      rw [List.pairwise_map]
      have hid : ∀ z : CartItem,
          ((if z.id = id then { z with quantity := q } else z) : CartItem).id
            = z.id := by
        intro z
        by_cases hz : z.id = id <;> simp [hz]
      exact hs.imp fun {a b} hab => by rw [hid a, hid b]; exact hab
  | clearCart => exact List.Pairwise.nil

/-- A sequence of user-triggered dispatches preserves pairwise-distinct
ids. -/
theorem ids_distinct_fold (actions : List CartAction) :
    (∀ a ∈ actions, a.isUserIntAction = true) →
    ∀ s : CartState, s.items.Pairwise (fun x y => x.id ≠ y.id) →
    (applyActions s actions).items.Pairwise (fun x y => x.id ≠ y.id) := by
  induction actions with
  | nil => exact fun _ s hs => hs
  | cons a rest ih =>
      intro h s hs
      exact ih (fun x hx => h x (List.mem_cons_of_mem a hx)) _
        (ids_distinct_step s a (h a (List.mem_cons_self a rest)) hs)

/-- C7 (amended to the load-filter behavior): after any sequence of
user-level operations starting from the initial empty cart, the item ids
are pairwise distinct — there are never two line items for the same
product id.  The startup load is excluded: it can introduce duplicate ids
(see the counterexample). -/
theorem C7_unique_ids (actions : List CartAction)
    (h : ∀ a ∈ actions, a.isUserIntAction = true) :
    (applyActions initialCartState actions).items.Pairwise
      (fun x y => x.id ≠ y.id) := by
  refine ids_distinct_fold actions h initialCartState ?_
  exact List.Pairwise.nil

/-- Witness for C7 at a concrete user session with a repeated id. -/
theorem C7_unique_ids_witness :
    (applyActions initialCartState
      [.addItem ⟨1, "a", 2, ""⟩, .addItem ⟨1, "c", 9, ""⟩,
       .addItem ⟨2, "b", 3, ""⟩]).items.Pairwise (fun x y => x.id ≠ y.id) :=
  C7_unique_ids _ (by decide)

/-- A persisted slot holding two well-typed entries with the same id. -/
def duplicateIdSlot : SlotContent :=
  .parsed (.arr
    [.obj [("id", .num 1), ("name", .str "A"), ("price", .num 10),
      ("quantity", .num 2), ("image", .str "")],
     .obj [("id", .num 1), ("name", .str "B"), ("price", .num 5),
      ("quantity", .num 1), ("image", .str "")]])

/-- C7 counterexample: the startup load of a slot holding two well-typed
entries with the same id puts both in the cart, so a reachable state has
two line items for one product id. -/
theorem C7_counterexample :
    ¬ (startupState duplicateIdSlot).items.Pairwise
      (fun x y => x.id ≠ y.id) := by
  decide

/-! ## C4: persistence round trip -/

/-- A serialized cart item passes the load filter's structural check. -/
theorem checkCartEntry_encode (item : CartItem) :
    checkCartEntry (encodeCartItem item) = .ok true := rfl

/-- Decoding a serialized cart item restores it exactly. -/
theorem decode_encode (item : CartItem) :
    decodeCartItem (encodeCartItem item) = item := rfl

/-- The load filter keeps every serialized cart item. -/
theorem filterEntries_encode (items : List CartItem) :
    filterEntries (items.map encodeCartItem)
      = .ok (items.map encodeCartItem) := by
  induction items with
  | nil => rfl
  | cons a t ih =>
      simp only [List.map_cons, filterEntries, checkCartEntry_encode, ih,
        if_true]

/-- Loading the serialized form of an item list restores the list. -/
theorem load_serialize (items : List CartItem) :
    loadCartFromStorage (serializeCart items) = items := by
  simp only [loadCartFromStorage, loadCartAux, serializeCart,
    filterEntries_encode, List.map_map]
  have : items.map (decodeCartItem ∘ encodeCartItem) = items.map id :=
    List.map_congr_left fun a _ => decode_encode a
  rw [this, List.map_id]

/-- C4: serializing the item collection with `saveCartToStorage` (a
successful write over any previous slot content) and reading the slot back
with `loadCartFromStorage` in a fresh store yields the original item
collection — all fields and the order are preserved — and the fresh
provider's mount effect starts in exactly that state. -/
theorem C4_round_trip (items : List CartItem) (slot : SlotContent) :
    loadCartFromStorage (saveCartToStorage items true slot) = items
    ∧ startupState (saveCartToStorage items true slot) = { items := items } := by
  have hload : loadCartFromStorage (saveCartToStorage items true slot)
      = items := by
    simp only [saveCartToStorage, if_pos]
    exact load_serialize items
  refine ⟨hload, ?_⟩
  rw [startupState]
  simp only [hload]
  cases items with
  | nil => rfl
  | cons a t =>
      rw [if_pos (by simp)]
      rfl

/-! ## C5: corruption tolerance -/

/-- Reading a property of a non-null JSON value does not throw. -/
theorem getField_of_not_null (j : Json) (k : String) (h : j.isNull = false) :
    j.getField k = .ok (j.fieldD k) := by
  cases j <;> simp_all [Json.getField, Json.isNull]

/-- On a non-null entry the structural check does not throw and computes
`entryPasses`. -/
theorem checkCartEntry_of_not_null (j : Json) (h : j.isNull = false) :
    checkCartEntry j = .ok (entryPasses j) := by
  cases j with
  | null => simp [Json.isNull] at h
  | obj fields =>
      cases hid : isNumber (Json.fieldD (.obj fields) "id") <;>
        cases hname : isString (Json.fieldD (.obj fields) "name") <;>
          cases hprice : isNumber (Json.fieldD (.obj fields) "price") <;>
            cases hqty : isNumber (Json.fieldD (.obj fields) "quantity") <;>
              simp [checkCartEntry, entryPasses, Json.getField, hid, hname,
                hprice, hqty]
  | bool b => rfl
  | num q => rfl
  | str s => rfl
  | arr elems => rfl

/-- On the `null` entry the structural check throws (property read on
`null`). -/
theorem checkCartEntry_null : checkCartEntry .null = .error () := rfl

/-- When no entry is `null`, the filter completes and keeps exactly the
entries passing the structural check. -/
theorem filterEntries_ok (elems : List Json)
    (h : ∀ j ∈ elems, j.isNull = false) :
    filterEntries elems = .ok (elems.filter entryPasses) := by
  induction elems with
  | nil => rfl
  | cons a t ih =>
      rw [filterEntries, checkCartEntry_of_not_null a
        (h a (List.mem_cons_self a t)),
        ih fun x hx => h x (List.mem_cons_of_mem a hx), List.filter_cons]

/-- When some entry is `null`, the filter throws. -/
theorem filterEntries_err (elems : List Json)
    (h : ∃ j ∈ elems, j.isNull = true) :
    filterEntries elems = .error () := by
  induction elems with
  | nil => simp at h
  | cons a t ih =>
      cases ha : a.isNull with
      | true =>
          have : a = .null := by cases a <;> simp_all [Json.isNull]
          subst this
          rw [filterEntries, checkCartEntry_null]
      | false =>
          obtain ⟨j, hj, hjnull⟩ := h
          rcases List.mem_cons.mp hj with rfl | hjt
          · rw [ha] at hjnull
            cases hjnull
          · rw [filterEntries, checkCartEntry_of_not_null a ha,
              ih ⟨j, hjt, hjnull⟩]

/-- A slot whose array holds one well-typed entry followed by `null`.  By
the claim the well-typed entry should be kept; the code discards the
whole load. -/
def goodThenNullSlot : SlotContent :=
  .parsed (.arr
    [.obj [("id", .num 1), ("name", .str "X"), ("price", .num 10),
      ("quantity", .num 2), ("image", .str "a.jpg")],
     .null])

/-- C5 counterexample: on a persisted array holding one entry that passes
the structural check and one `null` entry, the load returns the empty
list — the null entry's property read throws inside the guarded region
and the whole load is discarded — rather than keeping the well-typed
entry individually as the claim states. -/
theorem C5_counterexample :
    loadCartFromStorage goodThenNullSlot = []
    ∧ loadCartFromStorage (.parsed (.arr
        [.obj [("id", .num 1), ("name", .str "X"), ("price", .num 10),
          ("quantity", .num 2), ("image", .str "a.jpg")]]))
      = [⟨1, "X", 10, 2, "a.jpg"⟩]
    ∧ ([⟨1, "X", 10, 2, "a.jpg"⟩] : List CartItem) ≠ [] :=
  ⟨rfl, rfl, by decide⟩

/-- C5 (amended): `loadCartFromStorage` always returns normally, for every
slot content.  If the slot parses to an array none of whose entries is
`null`, entries failing the structural type check on id, name, price and
quantity are dropped individually and the remaining well-typed entries are
kept in order.  If some entry is the JSON literal `null`, the property
read inside the filter callback throws, the error is caught, and the
entire load is discarded, so the cart starts empty.  An absent slot,
unparsable text, or non-array JSON also yield the empty cart.  In every
case the store starts without crashing. -/
theorem C5_corruption_tolerance (elems : List Json) (j : Json) :
    ((elems.all fun e => !e.isNull) = true →
      loadCartFromStorage (.parsed (.arr elems))
        = (elems.filter entryPasses).map decodeCartItem)
    ∧ ((elems.any fun e => e.isNull) = true →
      loadCartFromStorage (.parsed (.arr elems)) = [])
    ∧ loadCartFromStorage .absent = []
    ∧ loadCartFromStorage .unparsable = []
    ∧ (j.isArr = false → loadCartFromStorage (.parsed j) = []) := by
  refine ⟨?_, ?_, rfl, rfl, ?_⟩
  · intro h
    have h2 : ∀ e ∈ elems, e.isNull = false := by
      intro e he
      have := List.all_eq_true.mp h e he
      simpa using this
    simp only [loadCartFromStorage, loadCartAux, filterEntries_ok elems h2]
  · intro h
    obtain ⟨e, he, henull⟩ := List.any_eq_true.mp h
    simp only [loadCartFromStorage, loadCartAux,
      filterEntries_err elems ⟨e, he, henull⟩]
  · intro h
    cases j <;> simp_all [Json.isArr, loadCartFromStorage, loadCartAux]

/-- Witness for C5: a mixed array without nulls keeps only the well-typed
entry; an array with a null entry loads as empty; a non-array JSON object
loads as empty. -/
theorem C5_corruption_tolerance_witness :
    loadCartFromStorage (.parsed (.arr
      [.obj [("id", .num 1), ("name", .str "X"), ("price", .num 10),
        ("quantity", .num 2), ("image", .str "a.jpg")],
       .num 5, .str "bad", .bool true,
       .obj [("id", .str "bad")]]))
      = (([.obj [("id", .num 1), ("name", .str "X"), ("price", .num 10),
          ("quantity", .num 2), ("image", .str "a.jpg")],
         .num 5, .str "bad", .bool true,
         .obj [("id", .str "bad")]] : List Json).filter
          entryPasses).map decodeCartItem
    ∧ loadCartFromStorage goodThenNullSlot = []
    ∧ loadCartFromStorage (.parsed (.obj [])) = [] := by
  refine ⟨?_, ?_, ?_⟩
  · exact (C5_corruption_tolerance _ (.obj [])).1 (by rfl)
  · exact (C5_corruption_tolerance
      [.obj [("id", .num 1), ("name", .str "X"), ("price", .num 10),
        ("quantity", .num 2), ("image", .str "a.jpg")], .null]
      (.obj [])).2.1 (by rfl)
  · exact (C5_corruption_tolerance [] (.obj [])).2.2.2.2 (by rfl)

/-! ## C10: the load-time check tests only runtime types -/

/-- A well-formed persisted array whose entries all pass the structural
type check while violating the data-model invariants: a quantity of 0, a
duplicate id with a non-integral quantity, and a negative quantity. -/
def invariantViolatingSlot : SlotContent :=
  .parsed (.arr
    [.obj [("id", .num 1), ("name", .str "A"), ("price", .num 10),
      ("quantity", .num 0), ("image", .str "x")],
     .obj [("id", .num 1), ("name", .str "B"), ("price", .num 5),
      ("quantity", .num half)],
     .obj [("id", .num 2), ("name", .str "C"), ("price", .num 3),
      ("quantity", .num (-3))]])

/-- C10: the structural check of `loadCartFromStorage` tests only the
runtime types of id, name, price and quantity: a well-formed persisted
array with a zero quantity, a non-integral quantity, a negative quantity
and two entries sharing id 1 is loaded in full, so the startup load by
itself establishes neither the `quantity >= 1` invariant nor
uniqueness-by-id. -/
theorem C10_load_checks_types_only :
    loadCartFromStorage invariantViolatingSlot
      = [⟨1, "A", 10, 0, "x"⟩, ⟨1, "B", 5, half, ""⟩, ⟨2, "C", 3, -3, ""⟩]
    ∧ ¬ (∀ item ∈ (startupState invariantViolatingSlot).items,
          1 ≤ item.quantity)
    ∧ ¬ (startupState invariantViolatingSlot).items.Pairwise
          (fun x y => x.id ≠ y.id)
    ∧ ¬ (1 ≤ half) ∧ half.den ≠ 1 ∧ (-3 : ℚ) < 0 :=
  ⟨rfl, by decide, by decide, by decide, by decide, by decide⟩
